import Mathlib

/-!
Verification of `run_flow.py` (Flowbit orchestrator runner).

This file shallowly embeds the data model and the operations of the runner
script: JSON values as parsed by `json.load`, workflow normalization
(`load_workflow`), prompt resolution (`extract_prompt`), the generation
client (`run_ollama`), the execution ledger (`append_execution_log`) and the
orchestration in `main`.  Fallible Python code (raised exceptions) is
embedded as `Except String`; the carried strings stand in for the Python
exception messages (abridged: no quotes).
-/

/-! ## String utilities (Python `str` operations used by the runner) -/

/-- Test whether the list `l` starts with the list `p` (Python `startswith`). -/
def listStartsWith : List Char → List Char → Bool
  | _, [] => true
  | [], _ :: _ => false
  | c :: cs, p :: ps => c = p && listStartsWith cs ps

/-- Test whether `n` occurs as a contiguous sublist of `l` (Python `in` on strings). -/
def subOccurs (n : List Char) : List Char → Bool
  | [] => n.isEmpty
  | c :: rest => listStartsWith (c :: rest) n || subOccurs n rest

/-- Python `s.startswith(needle)` on strings. -/
def strStartsWith (s needle : String) : Bool :=
  listStartsWith s.toList needle.toList

/-- Python `needle in s` substring containment on strings. -/
def containsSub (s needle : String) : Bool :=
  subOccurs needle.toList s.toList

/-- Helper for Python `str.replace`: replace non-overlapping occurrences of
`old` by `new`, scanning left to right.  `fuel` bounds the recursion; with
`fuel` at least the length of the scanned list and `old` nonempty the fuel is
never exhausted, so this computes exactly Python's replacement. -/
def pyReplaceAux (old new : List Char) : Nat → List Char → List Char
  | _, [] => []
  | 0, s => s
  | fuel + 1, c :: rest =>
    if !old.isEmpty && listStartsWith (c :: rest) old then
      new ++ pyReplaceAux old new fuel (List.drop old.length (c :: rest))
    else
      c :: pyReplaceAux old new fuel rest

/-- Python `s.replace(old, new)` for nonempty `old`. -/
def pyReplace (s old new : String) : String :=
  (pyReplaceAux old.toList new.toList s.toList.length s.toList).asString

/-- The character `/`, the POSIX path separator. -/
def slashChar : Char := '/'

/-- The part of a character list after its last `/` (list-level `os.path.basename`). -/
def basenameList (l : List Char) : List Char :=
  (l.reverse.takeWhile (fun c => c ≠ slashChar)).reverse

/-- Python `os.path.basename` on POSIX paths. -/
def os_basename (p : String) : String :=
  (basenameList p.toList).asString

/-- Source `run_flow.py:260`: `os.path.basename(flow_path).replace(".json", "")`. -/
def flowName (p : String) : String :=
  pyReplace (os_basename p) ".json" ""

/-! ## JSON values

`Json` models the Python values produced by `json.load` / `json.loads`.
Objects are association lists in source order (parsed Python dicts have
distinct keys, and preserve insertion order); numbers are modelled as
integers, which covers every numeric value the claims touch. -/

inductive Json where
  | null : Json
  | bool (b : Bool) : Json
  | num (n : Int) : Json
  | str (s : String) : Json
  | arr (elems : List Json) : Json
  | obj (fields : List (String × Json)) : Json
deriving Repr

/-- Python `d[k]`-style lookup in an association list (first match; parsed
dicts have distinct keys, so this is the unique binding). -/
def lookupField : List (String × Json) → String → Option Json
  | [], _ => none
  | (k2, v) :: rest, k => if k2 = k then some v else lookupField rest k

/-- Python truthiness of a JSON value (`bool(x)`). -/
def Json.truthy : Json → Bool
  | .null => false
  | .bool b => b
  | .num n => n ≠ 0
  | .str s => s ≠ ""
  | .arr xs => !xs.isEmpty
  | .obj fs => !fs.isEmpty

/-- Python truthiness of an optional value (`None` is falsy). -/
def optTruthy : Option Json → Bool
  | none => false
  | some j => j.truthy

/-- Whether the value is a Python dict (`isinstance(x, dict)`). -/
def isMapping : Json → Bool
  | .obj _ => true
  | _ => false

/-- Whether the value is a Python list (`isinstance(x, list)`). -/
def isList : Json → Bool
  | .arr _ => true
  | _ => false

/-- The string used by Python `repr` to quote strings (an apostrophe). -/
def pyQuote : String := String.singleton (Char.ofNat 39)

mutual

/-- Python `str(x)` for a parsed-JSON value.  Scalars follow Python exactly
(`str(30) = "30"`, `str(True) = "True"`, `str(None) = "None"`); containers
follow Python's `repr`-based rendering, eliding escape sequences (no claim
evaluates `str` on a container). -/
def pyStr : Json → String
  | .null => "None"
  | .bool b => if b then "True" else "False"
  | .num n => toString n
  | .str s => s
  | .arr xs => "[" ++ pyReprArr xs ++ "]"
  | .obj fs => "\x7b" ++ pyReprObj fs ++ "\x7d"

/-- Python `repr(x)` for a parsed-JSON value (modulo string escaping). -/
def pyRepr : Json → String
  | .null => "None"
  | .bool b => if b then "True" else "False"
  | .num n => toString n
  | .str s => pyQuote ++ s ++ pyQuote
  | .arr xs => "[" ++ pyReprArr xs ++ "]"
  | .obj fs => "\x7b" ++ pyReprObj fs ++ "\x7d"

/-- Comma-separated `repr`s of list elements. -/
def pyReprArr : List Json → String
  | [] => ""
  | [x] => pyRepr x
  | x :: y :: rest => pyRepr x ++ ", " ++ pyReprArr (y :: rest)

/-- Comma-separated `key: repr(value)` renderings of dict items. -/
def pyReprObj : List (String × Json) → String
  | [] => ""
  | [(k, v)] => pyQuote ++ k ++ pyQuote ++ ": " ++ pyRepr v
  | (k, v) :: p :: rest =>
    pyQuote ++ k ++ pyQuote ++ ": " ++ pyRepr v ++ ", " ++ pyReprObj (p :: rest)

end

/-- Python `k in x` for a string `k`: key membership for dicts, element
membership for lists, substring test for strings, and a `TypeError` for
non-iterable values. -/
def pyIn (k : String) : Json → Except String Bool
  | .obj fs => .ok (fs.any (fun kv => kv.1 = k))
  | .arr xs => .ok (xs.any (fun x => match x with | .str s => s = k | _ => false))
  | .str s => .ok (containsSub s k)
  | _ => .error "TypeError: argument of type int is not iterable"

/-- Python `x[k]` for a string key `k`: dict indexing (`KeyError` when the
key is absent), `TypeError` on every other value. -/
def pyIndexStr (j : Json) (k : String) : Except String Json :=
  match j with
  | .obj fs =>
    match lookupField fs k with
    | some v => .ok v
    | none => .error ("KeyError: " ++ k)
  | _ => .error "TypeError: indices must be integers"

/-- Python `len(x)`: defined for lists, strings and dicts. -/
def pyLen : Json → Except String Nat
  | .arr xs => .ok xs.length
  | .str s => .ok s.length
  | .obj fs => .ok fs.length
  | _ => .error "TypeError: object has no len"

example : pyReplace "Hello \x7bname\x7d" "\x7bname\x7d" "Ada" = "Hello Ada" := by decide
example : pyStr (Json.arr [Json.num 1, Json.str "a"]) = "[1, " ++ pyQuote ++ "a" ++ pyQuote ++ "]" := by decide
example : flowName "flows/my.json.flow.json" = "my.flow" := by decide
example : containsSub "xChatInputy" "ChatInput" = true := by decide
example : strStartsWith "xChatInput" "ChatInput" = false := by decide

/-! ## Workflow loading and normalization (`load_workflow`, run_flow.py:36-94)

The file system and JSON parsing are abstracted away: the argument is the
already-parsed document (`json.load(f)`), and raised `ValueError`s become
`Except.error` (messages abridged from the source f-strings). -/

/-- Source `load_workflow` (run_flow.py:43-84), applied to the parsed JSON
document.  A document with a `data` key is normalized to a fresh two-key
mapping; a flat document is returned as is. -/
def load_workflow (flow : Json) : Except String Json :=
  match flow with
  | .obj fields =>
    match lookupField fields "data" with
    | some d =>
      match d with
      | .obj dfields =>
        match lookupField dfields "nodes", lookupField dfields "edges" with
        | some ns, some es =>
          if isList ns && isList es then
            .ok (.obj [("nodes", ns), ("edges", es)])
          else
            .error "Workflow data has nodes/edges but they are not lists."
        | _, _ =>
          .error "Workflow data missing required keys (nodes or edges) under data."
      | _ => .error "Workflow has data key, but its content is not a dictionary."
    | none =>
      match lookupField fields "nodes", lookupField fields "edges" with
      | some ns, some es =>
        if isList ns && isList es then
          .ok flow
        else
          .error "Workflow has root level nodes/edges but they are not lists."
      | _, _ =>
        .error "Workflow must be a dictionary containing data.nodes/data.edges or root level nodes/edges as lists."
  | _ =>
    .error "Workflow must be a dictionary containing data.nodes/data.edges or root level nodes/edges as lists."

/-! ## Prompt resolution (`extract_prompt`, run_flow.py:96-162) -/

/-- The `ValueError` message raised at run_flow.py:162. -/
def notFoundMsg : String := "Input node with expected structure not found in flow nodes."

/-- The `ValueError` message raised at run_flow.py:102. -/
def invalidFlowMsg : String :=
  "Invalid flow structure passed to extract_prompt: Missing or invalid nodes key."

/-- Placeholder substitution (run_flow.py:114-119 and 151-156): when the
input payload is a dict, each key/value pair in iteration order replaces
every occurrence of the placeholder in the accumulating template; otherwise
the template is returned untouched.  Calling `.replace` on a non-string
template raises an `AttributeError` (only when the loop body runs at least
once, i.e. the payload is a nonempty dict). -/
def applySubst (input_data : Json) (template : Json) : Except String Json :=
  match input_data with
  | .obj [] => .ok template
  | .obj (p :: rest) =>
    match template with
    | .str t =>
      .ok (.str ((p :: rest).foldl
        (fun acc kv => pyReplace acc ("\x7b" ++ kv.1 ++ "\x7d") (pyStr kv.2)) t))
    | _ => .error "AttributeError: object has no attribute replace"
  | _ => .ok template

/-- One iteration of the Strategy A scan (run_flow.py:108-119) on a single
node: `none` means the loop continues with the next node, `some r` means the
loop ends with result (or raised error) `r`. -/
def stepA (input_data node : Json) : Option (Except String Json) :=
  match node with
  | .obj fs =>
    match lookupField fs "type" with
    | some (.str "InputNode") =>
      match lookupField fs "data" with
      | some d =>
        match pyIn "input" d with
        | .error e => some (.error e)
        | .ok true =>
          match pyIndexStr d "input" with
          | .error e => some (.error e)
          | .ok t => some (applySubst input_data t)
        | .ok false => none
      | none => none
    | _ => none
  | _ => none

/-- Strategy A (run_flow.py:107-119): scan the nodes in order for a simple
`InputNode`; `ok none` means no node ended the loop. -/
def strategyA (input_data : Json) : List Json → Except String (Option Json)
  | [] => .ok none
  | n :: rest =>
    match stepA input_data n with
    | some (.ok t) => .ok (some t)
    | some (.error e) => .error e
    | none => strategyA input_data rest

/-- Source `node.get(k) or node.get('data', {}).get(k)` (run_flow.py:125-126,
135-136): the top-level field when it is truthy, otherwise the field of the
`data` mapping (defaulting to an empty dict).  Python's `and`/`or`
short-circuiting means the `data` side is only evaluated (and can only raise
`AttributeError`) when the top-level field is falsy or absent. -/
def getWithFallback (node : Json) (k : String) : Except String (Option Json) :=
  match node with
  | .obj fields =>
    let top := lookupField fields k
    if optTruthy top then .ok top
    else
      match (lookupField fields "data").getD (.obj []) with
      | .obj dfields => .ok (lookupField dfields k)
      | _ => .error "AttributeError: object has no attribute get"
  | _ => .error "AttributeError: object has no attribute get"

/-- Source `node_id and str(node_id).startswith(needle)` (run_flow.py:127,137). -/
def idMatch (oid : Option Json) (needle : String) : Bool :=
  match oid with
  | some j => j.truthy && strStartsWith (pyStr j) needle
  | none => false

/-- Source `node_type and needle in str(node_type)` (run_flow.py:127,137). -/
def typeMatch (oty : Option Json) (needle : String) : Bool :=
  match oty with
  | some j => j.truthy && containsSub (pyStr j) needle
  | none => false

/-- The two structurally identical Strategy B scans (run_flow.py:124-130 and
134-139), parameterized by the needle (`"ChatInput"` or `"Prompt"`): find the
first node whose id (with `data` fallback) starts with the needle or whose
type contains it, returning the recorded id together with the node. -/
def findMatch (needle : String) : List Json → Except String (Option (Option Json × Json))
  | [] => .ok none
  | node :: rest =>
    match getWithFallback node "id" with
    | .error e => .error e
    | .ok oid =>
      match getWithFallback node "type" with
      | .error e => .error e
      | .ok oty =>
        if idMatch oid needle || typeMatch oty needle then .ok (some (oid, node))
        else findMatch needle rest

/-- Template extraction from a Prompt node (run_flow.py:142-148): first try
`node['data']['node']['template']['value']`, catching every exception; on
failure fall back to `node.get('data', {}).get('template', {}).get('value')`
(whose own `AttributeError`s propagate). -/
def promptTemplate (pnode : Json) : Except String (Option Json) :=
  match (do
      let a ← pyIndexStr pnode "data"
      let b ← pyIndexStr a "node"
      let c ← pyIndexStr b "template"
      pyIndexStr c "value" : Except String Json) with
  | .ok v => .ok (some v)
  | .error _ =>
    match pnode with
    | .obj fs =>
      match (lookupField fs "data").getD (.obj []) with
      | .obj df =>
        match (lookupField df "template").getD (.obj []) with
        | .obj tf => .ok (lookupField tf "value")
        | _ => .error "AttributeError: object has no attribute get"
      | _ => .error "AttributeError: object has no attribute get"
    | _ => .error "AttributeError: object has no attribute get"

/-- Source `extract_prompt` (run_flow.py:96-162): validate the flow shape,
try Strategy A (simple `InputNode`), then Strategy B (ChatInput id recorded
and truthy, then Prompt node with truthy template), else raise. -/
def extract_prompt (flow : Json) (input_data : Json) : Except String Json :=
  match flow with
  | .obj fields =>
    match lookupField fields "nodes" with
    | some (.arr nodes) =>
      match strategyA input_data nodes with
      | .error e => .error e
      | .ok (some t) => .ok t
      | .ok none =>
        match findMatch "ChatInput" nodes with
        | .error e => .error e
        | .ok found =>
          let chat_input_id : Option Json :=
            match found with
            | some (oid, _) => oid
            | none => none
          if optTruthy chat_input_id then
            match findMatch "Prompt" nodes with
            | .error e => .error e
            | .ok (some (_, pnode)) =>
              match promptTemplate pnode with
              | .error e => .error e
              | .ok (some tv) =>
                if tv.truthy then applySubst input_data tv
                else .error notFoundMsg
              | .ok none => .error notFoundMsg
            | .ok none => .error notFoundMsg
          else .error notFoundMsg
    | _ => .error invalidFlowMsg
  | _ => .error invalidFlowMsg

/-! ## Generation client (`run_ollama`, run_flow.py:164-192)

The HTTP exchange is abstracted as the single backend reply the one
`requests.post` call observes (the function performs exactly one request and
no retry): either a transport-level failure (`requests.exceptions.
RequestException`) or a response with a status code, its parsed JSON body and
its raw text.  Log-file writes are side effects without influence on the
result and are omitted. -/

inductive HttpResult where
  | transportError (msg : String) : HttpResult
  | response (status : Nat) (body : Json) (text : String) : HttpResult
deriving Repr

/-- Source `run_ollama` (run_flow.py:176-192), given the prompt it posts and
the backend's reply.  On 200 it returns `response.json().get('response', '')`
(an `AttributeError` propagates when the parsed body is not a dict); on any
other status it raises an error carrying status code and body text; a
transport failure raises an error carrying the transport error text. -/
def run_ollama (_prompt : Json) (result : HttpResult) : Except String Json :=
  match result with
  | .transportError msg => .error ("Ollama connection error: " ++ msg)
  | .response status body text =>
    if status = 200 then
      match body with
      | .obj fs => .ok ((lookupField fs "response").getD (.str ""))
      | _ => .error "AttributeError: object has no attribute get"
    else
      .error ("Ollama request failed: " ++ toString status ++ " - " ++ text)

/-! ## Execution ledger (`append_execution_log`, run_flow.py:194-206)

The ledger file is abstracted by its content: absent, present with invalid
JSON, or present with a parsed JSON value.  `json.dump` always writes valid
JSON, and the `seek(0)`/`dump`/`truncate()` sequence fully overwrites the
file, so a state `json v` is a file holding exactly the serialization of
`v`. -/

inductive FileState where
  | absent : FileState
  | invalid (raw : String) : FileState
  | json (v : Json) : FileState
deriving Repr

/-- Source `append_execution_log` (run_flow.py:194-206): create the file with
an empty array when absent, parse it (a `JSONDecodeError` yields `[]`),
append the entry and overwrite.  `data.append` raises an `AttributeError`
when the parsed content is not a list, leaving the file unchanged. -/
def append_execution_log (entry : Json) (file : FileState) : Except String FileState :=
  let created : Json :=
    match file with
    | .absent => .arr []
    | .invalid _ => .arr []
    | .json v => v
  match created with
  | .arr xs => .ok (.json (.arr (xs ++ [entry])))
  | _ => .error "AttributeError: object has no attribute append"

/-- Whether `append_execution_log` succeeds on this ledger state (the file is
absent, unparsable, or holds a JSON array). -/
def FileState.appendable : FileState → Bool
  | .json (.arr _) => true
  | .json _ => false
  | _ => true

/-- Whether the ledger file holds a syntactically valid JSON array. -/
def FileState.isJsonArray : FileState → Bool
  | .json (.arr _) => true
  | _ => false

/-! ## The runner (`main`, run_flow.py:208-341)

The model covers the inner `try` block (run_flow.py:265-336) for an
already-parsed input payload: the execution record construction, the ledger
append, the machine-readable stdout line and the exit code, for both the
success path and the error path.  Timestamps are abstract integers; `stdout`
is the sequence of lines the block prints. -/

/-- A line printed to stdout by the modelled part of `main`: a debug line, an
`ERROR: ...` line, or the JSON serialization of an execution record. -/
inductive OutLine where
  | debugLine (s : String) : OutLine
  | errorLine (s : String) : OutLine
  | recordLine (record : Json) : OutLine
deriving Repr

/-- Observable outcome of the modelled part of `main`: printed lines, final
ledger state and process exit code. -/
structure MainOutcome where
  stdout : List OutLine
  ledger : FileState
  exitCode : Nat
deriving Repr

/-- The execution-record dict built at run_flow.py:304-313 / 319-328, with
its fields in construction order. -/
def mkRecord (execId flow status : String) (input output : Json) (err : String)
    (startTime duration : Int) : Json :=
  .obj [("id", .str execId), ("flow", .str flow), ("status", .str status),
        ("input", input), ("output", output), ("error", .str err),
        ("startTime", .num startTime), ("duration", .num duration)]

/-- Source `len(flow['nodes'])` (run_flow.py:279), evaluated on the loaded
flow before prompt extraction. -/
def flowNodesLen (flow : Json) : Except String Nat :=
  match pyIndexStr flow "nodes" with
  | .ok v => pyLen v
  | .error e => .error e

/-- The error path of the inner `try` (run_flow.py:316-336): print the
`ERROR:` line, append the error record to the ledger, print the record as the
final line and exit 1.  When the append itself raises, the outer handler
(run_flow.py:337-341) prints its own `ERROR:` line and exits 1 without
printing the record. -/
def errorExit (pre : List OutLine) (ledger : FileState) (record : Json)
    (e : String) : MainOutcome :=
  match append_execution_log record ledger with
  | .ok st =>
    ⟨pre ++ [.errorLine ("ERROR: " ++ e), .recordLine record], st, 1⟩
  | .error e2 =>
    ⟨pre ++ [.errorLine ("ERROR: " ++ e),
             .errorLine ("ERROR: Unexpected error in main: " ++ e2)], ledger, 1⟩

/-- The inner `try` block of `main` (run_flow.py:265-336): load the workflow
(`flowDoc` is the outcome of `load_workflow` on the flow file, run again
through the debug `len(flow['nodes'])`), extract the prompt, call the
backend, then build, ledger-append and print the execution record.  Any
exception along the way takes the error path with that exception's message.
A success whose ledger append raises falls into the error path with the
append error (run_flow.py:316). -/
def runMain (flow_path : String) (input_data : Json) (flowDoc : Except String Json)
    (http : HttpResult) (ledger : FileState) (execId : String)
    (startTime endTime : Int) : MainOutcome :=
  let name := flowName flow_path
  let errRecord := fun (e : String) =>
    mkRecord execId name "Error" input_data (.str "") e startTime (endTime - startTime)
  match flowDoc with
  | .error e => errorExit [] ledger (errRecord e) e
  | .ok flow =>
    match flowNodesLen flow with
    | .error e => errorExit [] ledger (errRecord e) e
    | .ok n =>
      let pre := [OutLine.debugLine
        ("DEBUG: Successfully loaded flow with " ++ toString n ++ " nodes")]
      match extract_prompt flow input_data with
      | .error e => errorExit pre ledger (errRecord e) e
      | .ok prompt =>
        match run_ollama prompt http with
        | .error e => errorExit pre ledger (errRecord e) e
        | .ok output =>
          let record := mkRecord execId name "Success" input_data output ""
            startTime (endTime - startTime)
          match append_execution_log record ledger with
          | .ok st => ⟨pre ++ [.recordLine record], st, 0⟩
          | .error e2 => errorExit pre ledger (errRecord e2) e2

/-! ## Specification-side definitions

These definitions restate conditions from the specification's wording (used
to state the claims); the theorems below relate them to the embedded code. -/

/-- Strategy A condition as the spec words it: the node's type discriminator
equals `InputNode` and its `data` mapping contains an `input` field. -/
def isInputNodeA : Json → Bool
  | .obj fs =>
    (match lookupField fs "type" with
     | some (.str t) => t = "InputNode"
     | _ => false)
    &&
    (match lookupField fs "data" with
     | some (.obj df) => (lookupField df "input").isSome
     | _ => false)
  | _ => false

/-- Nodes on which the Strategy A scan raises instead of skipping: the type
discriminator equals `InputNode` and the `data` field is present but either
non-iterable (`'input' in data` raises a `TypeError`) or an iterable
containing `input` without being a dict (indexing it with a string raises). -/
def scanRaisesA : Json → Bool
  | .obj fs =>
    (match lookupField fs "type" with
     | some (.str t) => t = "InputNode"
     | _ => false)
    &&
    (match lookupField fs "data" with
     | some .null => true
     | some (.bool _) => true
     | some (.num _) => true
     | some (.str s) => containsSub s "input"
     | some (.arr xs) => xs.any (fun x => match x with | .str s => s = "input" | _ => false)
     | some (.obj _) => false
     | none => false)
  | _ => false

/-- The template of a Strategy A node: its `data.input` field (defaulting to
null; meaningful when `isInputNodeA` holds). -/
def aTemplate : Json → Json
  | .obj fs =>
    match lookupField fs "data" with
    | some (.obj df) => (lookupField df "input").getD .null
    | _ => .null
  | _ => .null

/-- Sequential placeholder substitution as the spec words it: for each
key/value pair in payload order, replace every occurrence of the placeholder
in the latest state of the working string. -/
def substSpec : List (String × Json) → String → String
  | [], t => t
  | (k, v) :: rest, t => substSpec rest (pyReplace t ("\x7b" ++ k ++ "\x7d") (pyStr v))

/-- The identifier (resp. type) a Strategy B scan effectively consults for a
well-formed node: the top-level field when truthy, otherwise the field of the
`data` mapping. -/
def effField (node : Json) (k : String) : Option Json :=
  match node with
  | .obj fields =>
    if optTruthy (lookupField fields k) then lookupField fields k
    else
      match (lookupField fields "data").getD (.obj []) with
      | .obj dfields => lookupField dfields k
      | _ => none
  | _ => none

/-- Strategy B node matching, stated from the (amended) spec: the effective
identifier is truthy and starts with the needle, or the effective type
discriminator is truthy and contains the needle as a substring. -/
def specMatches (needle : String) (node : Json) : Bool :=
  idMatch (effField node "id") needle || typeMatch (effField node "type") needle

/-- Well-formedness under which a Strategy B scan cannot raise on a node: the
node is a dict whose `data` field, when present, is a dict. -/
def nodeWF : Json → Bool
  | .obj fields =>
    match lookupField fields "data" with
    | none => true
    | some (.obj _) => true
    | some _ => false
  | _ => false

/-- The canonical workflow shape of the spec: a mapping whose only keys are
`nodes` and `edges` (in either dict order), both holding lists. -/
def isCanonical : Json → Bool
  | .obj [(k1, v1), (k2, v2)] =>
    ((k1 = "nodes" && k2 = "edges") || (k1 = "edges" && k2 = "nodes"))
      && isList v1 && isList v2
  | _ => false

/-- Whether an `Except` result is a normal return. -/
def exOk {α : Type} : Except String α → Bool
  | .ok _ => true
  | .error _ => false

/-! ## Helper lemmas -/

theorem listStartsWith_refl (l : List Char) : listStartsWith l l = true := by
  induction l with
  | nil => rfl
  | cons c cs ih => simp [listStartsWith, ih]

theorem listStartsWith_append (p t : List Char) : listStartsWith (p ++ t) p = true := by
  induction p with
  | nil => cases t <;> rfl
  | cons c cs ih => simp [listStartsWith, ih]

theorem listStartsWith_exists {l p : List Char} (h : listStartsWith l p = true) :
    ∃ t, l = p ++ t := by
  induction p generalizing l with
  | nil => exact ⟨l, rfl⟩
  | cons c cs ih =>
    cases l with
    | nil => simp [listStartsWith] at h
    | cons d ds =>
      simp only [listStartsWith, Bool.and_eq_true, decide_eq_true_eq] at h
      obtain ⟨t, ht⟩ := ih h.2
      exact ⟨t, by rw [h.1, List.cons_append, ht]⟩

theorem pyReplaceAux_nil (old new : List Char) (fuel : Nat) :
    pyReplaceAux old new fuel [] = [] := by
  cases fuel <;> rfl

theorem lookupField_isSome_any (fs : List (String × Json)) (k : String) :
    (lookupField fs k).isSome = fs.any (fun kv => kv.1 = k) := by
  induction fs with
  | nil => rfl
  | cons p rest ih =>
    obtain ⟨k2, v⟩ := p
    by_cases h : k2 = k
    · simp [lookupField, h]
    · simp [lookupField, h, ih]

theorem stepA_match {n : Json} (input : Json) (h : isInputNodeA n = true) :
    stepA input n = some (applySubst input (aTemplate n)) := by
  cases n with
  | obj fs =>
    simp only [isInputNodeA, Bool.and_eq_true] at h
    obtain ⟨h1, h2⟩ := h
    match htype : lookupField fs "type" with
    | some (.str t) =>
      rw [htype] at h1
      simp only [decide_eq_true_eq] at h1
      subst h1
      match hdata : lookupField fs "data" with
      | some (.obj df) =>
        rw [hdata] at h2
        match hinp : lookupField df "input" with
        | some tv =>
          have hany : df.any (fun kv => kv.1 = "input") = true := by
            rw [← lookupField_isSome_any, hinp]; rfl
          simp [stepA, htype, hdata, pyIn, hany, pyIndexStr, hinp, aTemplate]
        | none => simp [hinp] at h2
      | some .null => rw [hdata] at h2; simp at h2
      | some (.bool b) => rw [hdata] at h2; simp at h2
      | some (.num m) => rw [hdata] at h2; simp at h2
      | some (.str s) => rw [hdata] at h2; simp at h2
      | some (.arr xs) => rw [hdata] at h2; simp at h2
      | none => rw [hdata] at h2; simp at h2
    | some .null => rw [htype] at h1; simp at h1
    | some (.bool b) => rw [htype] at h1; simp at h1
    | some (.num m) => rw [htype] at h1; simp at h1
    | some (.arr xs) => rw [htype] at h1; simp at h1
    | some (.obj gs) => rw [htype] at h1; simp at h1
    | none => rw [htype] at h1; simp at h1
  | null => simp [isInputNodeA] at h
  | bool b => simp [isInputNodeA] at h
  | num m => simp [isInputNodeA] at h
  | str s => simp [isInputNodeA] at h
  | arr xs => simp [isInputNodeA] at h

theorem stepA_skip {n : Json} (input : Json) (hA : isInputNodeA n = false)
    (hR : scanRaisesA n = false) : stepA input n = none := by
  cases n with
  | obj fs =>
    match htype : lookupField fs "type" with
    | some (.str t) =>
      by_cases ht : t = "InputNode"
      · subst ht
        simp only [isInputNodeA, scanRaisesA, htype] at hA hR
        simp at hA hR
        match hdata : lookupField fs "data" with
        | some (.obj df) =>
          rw [hdata] at hA
          have hany : df.any (fun kv => kv.1 = "input") = false := by
            rw [← lookupField_isSome_any]
            cases hinp : lookupField df "input" with
            | none => rfl
            | some tv => simp [hinp] at hA
          simp [stepA, htype, hdata, pyIn, hany]
        | some .null => simp [hdata] at hR
        | some (.bool b) => simp [hdata] at hR
        | some (.num m) => simp [hdata] at hR
        | some (.str s) =>
          rw [hdata] at hR
          simp at hR
          simp [stepA, htype, hdata, pyIn, hR]
        | some (.arr xs) =>
          rw [hdata] at hR
          have hR2 : (xs.any fun x =>
              match x with | Json.str s => decide (s = "input") | _ => false) = false := hR
          simp only [stepA, htype, hdata, pyIn]
          rw [hR2]
        | none => simp [stepA, htype, hdata]
      · simp [stepA, htype, ht]
    | some .null => simp [stepA, htype]
    | some (.bool b) => simp [stepA, htype]
    | some (.num m) => simp [stepA, htype]
    | some (.arr xs) => simp [stepA, htype]
    | some (.obj gs) => simp [stepA, htype]
    | none => simp [stepA, htype]
  | null => rfl
  | bool b => rfl
  | num m => rfl
  | str s => rfl
  | arr xs => rfl

theorem strategyA_finds (input : Json) :
    ∀ (nodes : List Json) (m : Json),
      nodes.find? isInputNodeA = some m →
      (nodes.takeWhile (fun n => !isInputNodeA n)).all (fun n => !scanRaisesA n) = true →
      strategyA input nodes = (applySubst input (aTemplate m)).map some
  | [], m, hfind, _ => by simp at hfind
  | n :: rest, m, hfind, hsafe => by
    by_cases h : isInputNodeA n = true
    · rw [List.find?_cons_of_pos _ h] at hfind
      injection hfind with hm
      subst hm
      rw [strategyA, stepA_match input h]
      cases happ : applySubst input (aTemplate n) <;> simp [Except.map, happ]
    · have hA : isInputNodeA n = false := by revert h; cases isInputNodeA n <;> simp
      rw [List.find?_cons_of_neg _ (by simp [hA])] at hfind
      rw [List.takeWhile_cons_of_pos (by simp [hA])] at hsafe
      simp only [List.all_cons, Bool.and_eq_true, Bool.not_eq_true'] at hsafe
      rw [strategyA, stepA_skip input hA hsafe.1]
      exact strategyA_finds input rest m hfind (by
        simp only [List.all_eq_true] at hsafe ⊢
        exact hsafe.2)

theorem extract_prompt_strategyA (fields : List (String × Json)) (nodes : List Json)
    (input m : Json)
    (hn : lookupField fields "nodes" = some (.arr nodes))
    (hfind : nodes.find? isInputNodeA = some m)
    (hsafe : (nodes.takeWhile (fun n => !isInputNodeA n)).all (fun n => !scanRaisesA n) = true) :
    extract_prompt (.obj fields) input = applySubst input (aTemplate m) := by
  have hs := strategyA_finds input nodes m hfind hsafe
  simp only [extract_prompt, hn]
  rw [hs]
  cases applySubst input (aTemplate m) <;> rfl

theorem applySubst_obj (ps : List (String × Json)) (t : String) :
    applySubst (.obj ps) (.str t) = .ok (.str (substSpec ps t)) := by
  cases ps with
  | nil => rfl
  | cons p rest =>
    have hfold : ∀ (l : List (String × Json)) (acc : String),
        l.foldl (fun acc kv => pyReplace acc ("\x7b" ++ kv.1 ++ "\x7d") (pyStr kv.2)) acc
          = substSpec l acc := by
      intro l
      induction l with
      | nil => intro acc; rfl
      | cons q qs ih => intro acc; obtain ⟨k, v⟩ := q; simp [List.foldl, substSpec, ih]
    simp [applySubst, hfold]

theorem applySubst_not_mapping (j t : Json) (h : isMapping j = false) :
    applySubst j t = .ok t := by
  cases j <;> first | rfl | simp [isMapping] at h

theorem applySubst_str_ok (input : Json) (s : String) :
    ∃ r, applySubst input (.str s) = .ok (.str r) := by
  cases input with
  | obj ps =>
    cases ps with
    | nil => exact ⟨s, rfl⟩
    | cons p rest => exact ⟨_, rfl⟩
  | null => exact ⟨s, rfl⟩
  | bool b => exact ⟨s, rfl⟩
  | num n => exact ⟨s, rfl⟩
  | str t => exact ⟨s, rfl⟩
  | arr xs => exact ⟨s, rfl⟩

theorem pyReplace_empty (old new : String) : pyReplace "" old new = "" := rfl

theorem substSpec_empty (ps : List (String × Json)) : substSpec ps "" = "" := by
  induction ps with
  | nil => rfl
  | cons p rest ih =>
    obtain ⟨k, v⟩ := p
    have : pyReplace "" ("\x7b" ++ k ++ "\x7d") (pyStr v) = "" := rfl
    simp [substSpec, this, ih]

theorem applySubst_empty_str (input : Json) :
    applySubst input (.str "") = .ok (.str "") := by
  cases input with
  | obj ps => rw [applySubst_obj, substSpec_empty]
  | null => rfl
  | bool b => rfl
  | num n => rfl
  | str t => rfl
  | arr xs => rfl

theorem getWithFallback_wf (node : Json) (k : String) (h : nodeWF node = true) :
    getWithFallback node k = .ok (effField node k) := by
  cases node with
  | obj fields =>
    simp only [getWithFallback, effField]
    by_cases htop : optTruthy (lookupField fields k) = true
    · simp [htop]
    · have htop2 : optTruthy (lookupField fields k) = false := by
        revert htop; cases optTruthy (lookupField fields k) <;> simp
      simp only [nodeWF] at h
      match hdata : lookupField fields "data" with
      | none => simp [htop2, hdata]
      | some (.obj df) => simp [htop2, hdata]
      | some .null => rw [hdata] at h; simp at h
      | some (.bool b) => rw [hdata] at h; simp at h
      | some (.num n) => rw [hdata] at h; simp at h
      | some (.str s) => rw [hdata] at h; simp at h
      | some (.arr xs) => rw [hdata] at h; simp at h
  | null => simp [nodeWF] at h
  | bool b => simp [nodeWF] at h
  | num n => simp [nodeWF] at h
  | str s => simp [nodeWF] at h
  | arr xs => simp [nodeWF] at h

theorem findMatch_spec (needle : String) :
    ∀ (nodes : List Json), nodes.all nodeWF = true →
      findMatch needle nodes =
        .ok ((nodes.find? (specMatches needle)).map (fun nd => (effField nd "id", nd)))
  | [], _ => rfl
  | node :: rest, hwf => by
    simp only [List.all_cons, Bool.and_eq_true] at hwf
    rw [findMatch, getWithFallback_wf node "id" hwf.1, getWithFallback_wf node "type" hwf.1]
    by_cases h : specMatches needle node = true
    · have h2 : (idMatch (effField node "id") needle
          || typeMatch (effField node "type") needle) = true := h
      rw [List.find?_cons_of_pos _ h]
      simp [h2]
    · have h2 : (idMatch (effField node "id") needle
          || typeMatch (effField node "type") needle) = false := by
        revert h; simp only [specMatches]
        cases idMatch (effField node "id") needle || typeMatch (effField node "type") needle <;>
          simp
      rw [List.find?_cons_of_neg _ (by simp [h])]
      simp only [h2, Bool.false_eq_true, if_false]
      exact findMatch_spec needle rest hwf.2

theorem str_toList_append (a b : String) : (a ++ b).toList = a.toList ++ b.toList := by
  cases a; cases b; rfl

theorem asString_toList (l : List Char) : l.asString.toList = l := rfl

theorem toList_asString_self (s : String) : s.toList.asString = s := rfl

theorem takeWhile_append_stop (p : Char → Bool) (a : List Char) (x : Char) (b : List Char)
    (ha : ∀ c ∈ a, p c = true) (hx : p x = false) :
    (a ++ x :: b).takeWhile p = a := by
  induction a with
  | nil => simp [List.takeWhile, hx]
  | cons c cs ih =>
    have hc : p c = true := ha c (by simp)
    simp only [List.cons_append, List.takeWhile_cons, hc, if_true]
    rw [ih (fun d hd => ha d (by simp [hd]))]

theorem basenameList_append (l1 l2 : List Char) (h : ∀ c ∈ l2, c ≠ slashChar) :
    basenameList (l1 ++ slashChar :: l2) = l2 := by
  simp only [basenameList]
  rw [List.reverse_append, List.reverse_cons, List.append_assoc, List.singleton_append]
  rw [takeWhile_append_stop _ l2.reverse slashChar (l1.reverse)
    (fun c hc => by simp [h c (List.mem_reverse.mp hc)]) (by simp)]
  exact List.reverse_reverse l2

theorem dropLast_cons_ne (c : Char) (l : List Char) (h : l ≠ []) :
    (c :: l).dropLast = c :: l.dropLast := by
  cases l with
  | nil => exact absurd rfl h
  | cons d ds => rfl

theorem dropLast_append_ne (a t : List Char) (ht : t ≠ []) :
    (a ++ t).dropLast = a ++ t.dropLast := by
  induction a with
  | nil => rfl
  | cons c cs ih =>
    have hne : cs ++ t ≠ [] := by
      intro hcontra
      exact ht (List.append_eq_nil.mp hcontra).2
    rw [List.cons_append, dropLast_cons_ne c (cs ++ t) hne, ih, List.cons_append]

theorem subOccurs_of_startsWith {n l : List Char} (hn : n ≠ [])
    (h : listStartsWith l n = true) : subOccurs n l = true := by
  cases l with
  | nil =>
    obtain ⟨t, ht⟩ := listStartsWith_exists h
    rw [List.nil_eq, List.append_eq_nil] at ht
    exact absurd ht.1 hn
  | cons c cs => simp [subOccurs, h]

theorem replace_unique_end (n : List Char) (hn : n ≠ []) :
    ∀ (s : List Char) (fuel : Nat), (s ++ n).length ≤ fuel →
      subOccurs n ((s ++ n).dropLast) = false →
      pyReplaceAux n [] fuel (s ++ n) = s
  | [], fuel, hfuel, _ => by
    cases n with
    | nil => exact absurd rfl hn
    | cons c cs =>
      cases fuel with
      | zero => simp at hfuel
      | succ f =>
        simp only [List.nil_append, pyReplaceAux, List.isEmpty_cons, Bool.not_false,
          listStartsWith_refl, Bool.and_self, if_true, List.nil_append]
        rw [List.drop_length, pyReplaceAux_nil]
  | c :: s', fuel, hfuel, hocc => by
    have hne : s' ++ n ≠ [] := by
      intro hcontra
      exact hn (List.append_eq_nil.mp hcontra).2
    cases fuel with
    | zero => simp at hfuel
    | succ f =>
      have hnp : listStartsWith (c :: (s' ++ n)) n = false := by
        by_contra hcontra
        have hsw : listStartsWith (c :: (s' ++ n)) n = true := by
          revert hcontra; cases listStartsWith (c :: (s' ++ n)) n <;> simp
        obtain ⟨t, ht⟩ := listStartsWith_exists hsw
        have htne : t ≠ [] := by
          intro h0
          subst h0
          have := congrArg List.length ht
          simp at this
          omega
        have hd : (c :: (s' ++ n)).dropLast = n ++ t.dropLast := by
          rw [ht, dropLast_append_ne n t htne]
        rw [List.cons_append] at hocc
        rw [hd] at hocc
        rw [subOccurs_of_startsWith hn (listStartsWith_append n t.dropLast)] at hocc
        exact Bool.true_eq_false.mp hocc
      have hEmpty : (!n.isEmpty && listStartsWith (c :: (s' ++ n)) n) = false := by
        rw [hnp, Bool.and_false]
      rw [List.cons_append, pyReplaceAux, if_neg (by rw [hEmpty]; exact Bool.false_ne_true)]
      have hocc2 : subOccurs n ((s' ++ n).dropLast) = false := by
        rw [List.cons_append, dropLast_cons_ne c (s' ++ n) hne] at hocc
        revert hocc
        simp only [subOccurs]
        cases listStartsWith (c :: (s' ++ n).dropLast) n <;>
          cases subOccurs n ((s' ++ n).dropLast) <;> simp
      have hfuel2 : (s' ++ n).length ≤ f := by
        rw [List.cons_append] at hfuel
        simp only [List.length_cons] at hfuel
        omega
      rw [replace_unique_end n hn s' f hfuel2 hocc2]

/-- The records a readable ledger state holds (meaningful on appendable states). -/
def FileState.entries : FileState → List Json
  | .absent => []
  | .invalid _ => []
  | .json (.arr xs) => xs
  | .json _ => []

theorem append_appendable (entry : Json) (fs : FileState) (h : fs.appendable = true) :
    append_execution_log entry fs = .ok (.json (.arr (fs.entries ++ [entry]))) := by
  cases fs with
  | absent => rfl
  | invalid raw => rfl
  | json v =>
    cases v with
    | arr xs => rfl
    | null => simp [FileState.appendable] at h
    | bool b => simp [FileState.appendable] at h
    | num n => simp [FileState.appendable] at h
    | str s => simp [FileState.appendable] at h
    | obj fsj => simp [FileState.appendable] at h

theorem getLast?_append_two {α : Type} (pre : List α) (x y : α) :
    (pre ++ [x, y]).getLast? = some y := by
  rw [show pre ++ [x, y] = (pre ++ [x]) ++ [y] by simp]
  exact List.getLast?_concat _

theorem errorExit_spec (pre : List OutLine) (ledger : FileState) (record : Json)
    (e : String) (h : ledger.appendable = true) :
    errorExit pre ledger record e =
      ⟨pre ++ [.errorLine ("ERROR: " ++ e), .recordLine record],
       .json (.arr (ledger.entries ++ [record])), 1⟩ := by
  rw [errorExit, append_appendable record ledger h]

/-! ## Concrete fixtures used by counterexamples and witnesses -/

/-- An `InputNode` whose `data` is the non-iterable value `5`: the Strategy A
scan raises a `TypeError` on it. -/
def nBad : Json := .obj [("type", .str "InputNode"), ("data", .num 5)]

/-- A fully valid Strategy A node with template `A-template`. -/
def nGood : Json := .obj [("type", .str "InputNode"), ("data", .obj [("input", .str "A-template")])]

/-- A valid Strategy A node whose template is the empty string. -/
def nEmpty : Json := .obj [("type", .str "InputNode"), ("data", .obj [("input", .str "")])]

/-- A ChatInput node with a truthy identifier. -/
def nChat : Json := .obj [("id", .str "ChatInput-1")]

/-- A Prompt node carrying the non-empty template `B-template`. -/
def nPrompt : Json :=
  .obj [("id", .str "Prompt-1"), ("data", .obj [("template", .obj [("value", .str "B-template")])])]

/-- A node whose identifier contains `ChatInput` strictly inside, not as a prefix. -/
def nMid : Json := .obj [("id", .str "xChatInput-1")]

/-- A node matching the ChatInput search only through its type discriminator,
with no identifier at either level. -/
def nTypeOnly : Json := .obj [("type", .str "MyChatInputX")]

/-- Workflow containing a TypeError-raising node before a valid Strategy A
node and a valid ChatInput/Prompt pair. -/
def flowC1 : Json := .obj [("nodes", .arr [nBad, nGood, nChat, nPrompt]), ("edges", .arr [])]

/-- Workflow containing an empty-template `InputNode` and a valid
ChatInput/Prompt pair with a non-empty template. -/
def flowC2 : Json := .obj [("nodes", .arr [nEmpty, nChat, nPrompt]), ("edges", .arr [])]

/-- Workflow whose only ChatInput-like node carries the substring mid-id. -/
def flowC3 : Json := .obj [("nodes", .arr [nMid, nPrompt]), ("edges", .arr [])]

/-- Workflow with only the valid ChatInput/Prompt pair. -/
def flowB : Json := .obj [("nodes", .arr [nChat, nPrompt]), ("edges", .arr [])]

/-- Workflow whose ChatInput match has no identifier, plus a valid Prompt node. -/
def flowC10 : Json := .obj [("nodes", .arr [nTypeOnly, nPrompt]), ("edges", .arr [])]

/-- Node list and field list of the Strategy A priority witness. -/
def nodesW1 : List Json := [nGood, nChat, nPrompt]

/-- Fields of the witness workflow encompassing `nodesW1`. -/
def fieldsW1 : List (String × Json) := [("nodes", .arr nodesW1), ("edges", .arr [])]

/-! ## Claims -/

/-- C1 (amended).  Resolution priority: for every workflow, when the node
list contains a node satisfying Strategy A (type discriminator `InputNode`,
`data` mapping containing an `input` field), the resolver's result is
exactly the substitution applied to the *first* such node's template
(original array order, first-match-wins), regardless of any ChatInput/Prompt
pair — provided no earlier scanned node aborts the scan with a raised
`TypeError` (an `InputNode`-typed node whose `data` is a non-mapping the
membership test or indexing chokes on); when that template is a string the
resolver returns it normally. -/
theorem c1_resolution_priority (fields : List (String × Json)) (nodes : List Json)
    (input m : Json)
    (hn : lookupField fields "nodes" = some (.arr nodes))
    (hfind : nodes.find? isInputNodeA = some m)
    (hsafe : (nodes.takeWhile (fun n => !isInputNodeA n)).all (fun n => !scanRaisesA n) = true) :
    extract_prompt (.obj fields) input = applySubst input (aTemplate m)
    ∧ ∀ s, aTemplate m = .str s → ∃ r, extract_prompt (.obj fields) input = .ok (.str r) := by
  have h := extract_prompt_strategyA fields nodes input m hn hfind hsafe
  refine ⟨h, ?_⟩
  intro s hs
  obtain ⟨r, hr⟩ := applySubst_str_ok input s
  exact ⟨r, by rw [h, hs, hr]⟩

/-- Witness for C1: a workflow holding a valid `InputNode` and a valid
ChatInput/Prompt pair resolves to Strategy A's template. -/
theorem c1_resolution_priority_witness :
    lookupField fieldsW1 "nodes" = some (.arr nodesW1)
    ∧ nodesW1.find? isInputNodeA = some nGood
    ∧ (nodesW1.takeWhile (fun n => !isInputNodeA n)).all (fun n => !scanRaisesA n) = true
    ∧ extract_prompt (.obj fieldsW1) (.obj [("name", .str "Ada")]) = .ok (.str "A-template") :=
  ⟨rfl, rfl, rfl,
    ((c1_resolution_priority fieldsW1 nodesW1 (.obj [("name", .str "Ada")]) nGood
      rfl rfl rfl).1).trans rfl⟩

/-- Counterexample to C1 as frozen: `flowC1` contains a node satisfying
Strategy A (`nGood`) and a valid ChatInput/Prompt pair (which on its own
resolves to `B-template`), yet resolution does not return Strategy A's
template — the scan raises a `TypeError` on the earlier node `nBad`. -/
theorem c1_resolution_priority_cex :
    [nBad, nGood, nChat, nPrompt].any isInputNodeA = true
    ∧ extract_prompt flowB .null = .ok (.str "B-template")
    ∧ extract_prompt flowC1 (.obj [])
        = .error "TypeError: argument of type int is not iterable"
    ∧ extract_prompt flowC1 (.obj []) ≠ .ok (.str "A-template") :=
  ⟨rfl, rfl, rfl, fun h => Except.noConfusion h⟩

/-- C2 (amended).  Strategy A wins whenever it matches at all, even when its
template is the empty string (the resolver then returns the empty prompt);
only Strategy B filters on template truthiness: a found Prompt node whose
extracted template is falsy makes resolution fail with the no-matching-node
error rather than fall anywhere else. -/
theorem c2_first_nonempty_wins :
    (∀ (fields : List (String × Json)) (nodes : List Json) (input m : Json),
      lookupField fields "nodes" = some (.arr nodes) →
      nodes.find? isInputNodeA = some m →
      (nodes.takeWhile (fun n => !isInputNodeA n)).all (fun n => !scanRaisesA n) = true →
      aTemplate m = .str "" →
      extract_prompt (.obj fields) input = .ok (.str ""))
    ∧ (∀ (fields : List (String × Json)) (nodes : List Json) (input : Json)
        (oid : Option Json) (nd : Json) (oid2 : Option Json) (pnode : Json) (tv : Option Json),
      lookupField fields "nodes" = some (.arr nodes) →
      strategyA input nodes = .ok none →
      findMatch "ChatInput" nodes = .ok (some (oid, nd)) →
      optTruthy oid = true →
      findMatch "Prompt" nodes = .ok (some (oid2, pnode)) →
      promptTemplate pnode = .ok tv →
      optTruthy tv = false →
      extract_prompt (.obj fields) input = .error notFoundMsg) := by
  constructor
  · intro fields nodes input m hn hfind hsafe hempty
    rw [extract_prompt_strategyA fields nodes input m hn hfind hsafe, hempty]
    exact applySubst_empty_str input
  · intro fields nodes input oid nd oid2 pnode tv hn hA hchat htr hprompt htmpl hfalsy
    simp only [extract_prompt, hn, hA, hchat, htr, hprompt, htmpl, if_true]
    cases tv with
    | none => rfl
    | some v =>
      have hv : v.truthy = false := hfalsy
      show (if v.truthy = true then applySubst input v else Except.error notFoundMsg)
        = Except.error notFoundMsg
      rw [hv]
      simp

/-- Witness for C2: an empty Strategy A template still wins. -/
theorem c2_first_nonempty_wins_witness :
    [nEmpty, nChat, nPrompt].find? isInputNodeA = some nEmpty
    ∧ aTemplate nEmpty = .str ""
    ∧ extract_prompt (.obj [("nodes", .arr [nEmpty, nChat, nPrompt]), ("edges", .arr [])])
        (.obj []) = .ok (.str "") :=
  ⟨rfl, rfl,
    c2_first_nonempty_wins.1 [("nodes", .arr [nEmpty, nChat, nPrompt]), ("edges", .arr [])]
      [nEmpty, nChat, nPrompt] (.obj []) nEmpty rfl rfl rfl rfl⟩

/-- Counterexample to C2 as frozen: in `flowC2` the first matching
`InputNode` has an empty `input` field and the workflow carries a valid
ChatInput/Prompt pair whose template `B-template` is non-empty; the frozen
claim demands Strategy B's non-empty template to win, but the code returns
Strategy A's empty string. -/
theorem c2_first_nonempty_wins_cex :
    extract_prompt flowC2 (.obj []) = .ok (.str "")
    ∧ extract_prompt flowB .null = .ok (.str "B-template")
    ∧ extract_prompt flowC2 (.obj []) ≠ .ok (.str "B-template") :=
  ⟨rfl, rfl, fun h => by
    have h2 : Json.str "" = Json.str "B-template" := by
      have h3 : (Except.ok (Json.str "") : Except String Json) = .ok (.str "B-template") := h
      injection h3
    have h4 : "" = "B-template" := by injection h2
    exact absurd h4 (by decide)⟩

/-- C3 (amended).  Strategy B node matching: the scan consults the effective
identifier (top-level `id` when truthy, else the `data`-level `id`) and the
effective type discriminator (same fallback); a node matches when the
effective identifier is truthy and *starts with* the needle (`ChatInput`
resp. `Prompt` — a prefix test, not a containment test), or when the
effective type is truthy and *contains* the needle anywhere; the scan
returns the first matching node in array order together with its recorded
identifier (on node lists where every node is a dict whose `data`, if
present, is a dict, so that the scan cannot raise). -/
theorem c3_node_matching (needle : String) (nodes : List Json)
    (hwf : nodes.all nodeWF = true) :
    findMatch needle nodes =
      .ok ((nodes.find? (specMatches needle)).map (fun nd => (effField nd "id", nd))) :=
  findMatch_spec needle nodes hwf

/-- Witness for C3: the prefix-matching scan finds `nChat` and records its id. -/
theorem c3_node_matching_witness :
    [nChat, nPrompt].all nodeWF = true
    ∧ findMatch "ChatInput" [nChat, nPrompt] =
        .ok (([nChat, nPrompt].find? (specMatches "ChatInput")).map
          (fun nd => (effField nd "id", nd))) :=
  ⟨rfl, c3_node_matching "ChatInput" [nChat, nPrompt] rfl⟩

/-- Counterexample to C3 as frozen: the node `nMid` has identifier
`xChatInput-1`, which contains `ChatInput` in the middle (not as a prefix)
and per the frozen claim should match the ChatInput search, making `flowC3`
resolve to the Prompt node's `B-template`; the code instead matches
identifiers only by prefix, finds no ChatInput node, and raises the
no-matching-node error. -/
theorem c3_node_matching_cex :
    containsSub "xChatInput-1" "ChatInput" = true
    ∧ strStartsWith "xChatInput-1" "ChatInput" = false
    ∧ extract_prompt flowC3 .null = .error notFoundMsg
    ∧ extract_prompt flowC3 .null ≠ .ok (.str "B-template") :=
  ⟨rfl, rfl, rfl, fun h => Except.noConfusion h⟩

/-- Flat workflow document carrying an extra top-level key besides `nodes`
and `edges`. -/
def flatExtra : Json := .obj [("nodes", .arr []), ("edges", .arr []), ("foo", .num 1)]

/-- The example workflow of the substitution claim: a single `InputNode` with
the template `Hello {name}, you are {age}`. -/
def exFlow : Json :=
  .obj [("nodes", .arr [.obj [("type", .str "InputNode"),
    ("data", .obj [("input", .str "Hello \x7bname\x7d, you are \x7bage\x7d")])]]),
    ("edges", .arr [])]

/-- The example payload of the substitution claim. -/
def exInput : Json := .obj [("name", .str "Ada"), ("age", .num 30)]

/-- C4 (amended).  Canonical normalization: every successfully loaded
document that carries a `data` key normalizes to exactly the canonical
two-key shape, and a flat document whose only keys are `nodes` and `edges`
(both lists) loads to the same canonical value as the nested document with
the same sequences — but a flat document is returned unmodified, so extra
top-level keys survive (see the counterexample). -/
theorem c4_canonical_normalization :
    (∀ (fields : List (String × Json)) (d r : Json),
      lookupField fields "data" = some d →
      load_workflow (.obj fields) = .ok r →
      isCanonical r = true)
    ∧ (∀ (ns es : List Json),
      load_workflow (.obj [("nodes", .arr ns), ("edges", .arr es)])
        = load_workflow (.obj [("data", .obj [("nodes", .arr ns), ("edges", .arr es)])])
      ∧ load_workflow (.obj [("nodes", .arr ns), ("edges", .arr es)])
        = .ok (.obj [("nodes", .arr ns), ("edges", .arr es)])) := by
  constructor
  · intro fields d r hdata hload
    match d with
    | .null | .bool _ | .num _ | .str _ | .arr _ =>
      simp only [load_workflow, hdata] at hload
      exact Except.noConfusion hload
    | .obj dfields =>
      match hns : lookupField dfields "nodes", hes : lookupField dfields "edges" with
      | some ns, some es =>
        simp only [load_workflow, hdata, hns, hes] at hload
        by_cases hl : (isList ns && isList es) = true
        · rw [if_pos hl] at hload
          injection hload with hr
          subst hr
          simp [isCanonical, hl]
        · rw [if_neg (by simp [hl])] at hload
          exact Except.noConfusion hload
      | some ns, none =>
        simp only [load_workflow, hdata, hns, hes] at hload
        exact Except.noConfusion hload
      | none, some es =>
        simp only [load_workflow, hdata, hns, hes] at hload
        exact Except.noConfusion hload
      | none, none =>
        simp only [load_workflow, hdata, hns, hes] at hload
        exact Except.noConfusion hload
  · intro ns es
    exact ⟨rfl, rfl⟩

/-- Witness for C4: a nested document normalizes to the canonical shape. -/
theorem c4_canonical_normalization_witness :
    lookupField [("data", Json.obj [("nodes", .arr []), ("edges", .arr [])])] "data"
      = some (.obj [("nodes", .arr []), ("edges", .arr [])])
    ∧ load_workflow (.obj [("data", .obj [("nodes", .arr []), ("edges", .arr [])])])
      = .ok (.obj [("nodes", .arr []), ("edges", .arr [])])
    ∧ isCanonical (.obj [("nodes", .arr []), ("edges", .arr [])]) = true :=
  ⟨rfl, rfl,
    c4_canonical_normalization.1 [("data", Json.obj [("nodes", .arr []), ("edges", .arr [])])]
      (.obj [("nodes", .arr []), ("edges", .arr [])])
      (.obj [("nodes", .arr []), ("edges", .arr [])]) rfl rfl⟩

/-- Counterexample to C4 as frozen: loading succeeds on the flat document
`flatExtra` but returns it unchanged, with the extra key `foo` — not the
canonical shape whose only keys are `nodes` and `edges`. -/
theorem c4_canonical_normalization_cex :
    load_workflow flatExtra = .ok flatExtra
    ∧ isCanonical flatExtra = false :=
  ⟨rfl, rfl⟩

/-- C5.  Placeholder substitution: on a mapping payload the resolver folds
over the key/value pairs in payload order, replacing every occurrence of the
placeholder `{key}` in the accumulating working string with the value's
string representation; a non-mapping payload leaves the template untouched;
and the spec's concrete example resolves end-to-end through
`extract_prompt`. -/
theorem c5_placeholder_substitution :
    (∀ (ps : List (String × Json)) (t : String),
      applySubst (.obj ps) (.str t) = .ok (.str (substSpec ps t)))
    ∧ (∀ (payload template : Json), isMapping payload = false →
      applySubst payload template = .ok template)
    ∧ extract_prompt exFlow exInput = .ok (.str "Hello Ada, you are 30") :=
  ⟨applySubst_obj, applySubst_not_mapping, rfl⟩

/-- Witness for C5: a non-mapping payload returns the template unchanged. -/
theorem c5_placeholder_substitution_witness :
    isMapping .null = false ∧ applySubst .null (.str "abc") = .ok (.str "abc") :=
  ⟨rfl, c5_placeholder_substitution.2.1 .null (.str "abc") rfl⟩

/-- C6 (amended).  Generation client: `run_ollama` returns normally exactly
when the backend answers 200 *with a mapping body*, in which case it returns
the body's `response` field (empty string when absent); on a non-200 status
it fails with an error carrying the status code and the body text; on a
transport failure it fails with the transport error text; a 200 response
whose parsed body is not a mapping raises an `AttributeError` instead of
returning.  The single `requests.post` is consumed once: no retry exists. -/
theorem c6_generation_client :
    (∀ (p : Json) (fs : List (String × Json)) (t : String),
      run_ollama p (.response 200 (.obj fs) t)
        = .ok ((lookupField fs "response").getD (.str "")))
    ∧ (∀ (p body : Json) (s : Nat) (t : String), s ≠ 200 →
      run_ollama p (.response s body t)
        = .error ("Ollama request failed: " ++ toString s ++ " - " ++ t))
    ∧ (∀ (p : Json) (m : String),
      run_ollama p (.transportError m) = .error ("Ollama connection error: " ++ m))
    ∧ (∀ (p body : Json) (t : String), isMapping body = false →
      exOk (run_ollama p (.response 200 body t)) = false) := by
  refine ⟨fun p fs t => rfl, ?_, fun p m => rfl, ?_⟩
  · intro p body s t h
    simp only [run_ollama]
    rw [if_neg h]
  · intro p body t h
    cases body <;> first | rfl | simp [isMapping] at h

/-- Witness for C6: a 500 reply fails with status and body text. -/
theorem c6_generation_client_witness :
    (500 : Nat) ≠ 200
    ∧ run_ollama (.str "p") (.response 500 .null "boom")
      = .error ("Ollama request failed: " ++ toString (500 : Nat) ++ " - " ++ "boom") :=
  ⟨by decide, c6_generation_client.2.1 (.str "p") .null 500 "boom" (by decide)⟩

/-- Counterexample to C6 as frozen: the backend answers 200 with the JSON
body `[]`; per the frozen claim the client must return normally, but
`response.json().get` raises an `AttributeError` on the list. -/
theorem c6_generation_client_cex :
    run_ollama (.str "p") (.response 200 (.arr []) "[]")
      = .error "AttributeError: object has no attribute get"
    ∧ exOk (run_ollama (.str "p") (.response 200 (.arr []) "[]")) = false :=
  ⟨rfl, rfl⟩

/-- C7.  Execution ledger: every successful append leaves the file holding a
valid JSON array; two appends starting from a nonexistent file yield exactly
the two records in call order; an append on a corrupt (unparsable) file
succeeds and yields exactly the one new record. -/
theorem c7_execution_ledger :
    (∀ (entry : Json) (fs st : FileState),
      append_execution_log entry fs = .ok st → st.isJsonArray = true)
    ∧ (∀ (e1 e2 : Json),
      (append_execution_log e1 .absent).bind (fun s => append_execution_log e2 s)
        = .ok (.json (.arr [e1, e2])))
    ∧ (∀ (entry : Json) (raw : String),
      append_execution_log entry (.invalid raw) = .ok (.json (.arr [entry]))) := by
  refine ⟨?_, fun e1 e2 => rfl, fun entry raw => rfl⟩
  intro entry fs st h
  cases fs with
  | absent => injection h with hs; subst hs; rfl
  | invalid raw => injection h with hs; subst hs; rfl
  | json v =>
    cases v with
    | arr xs => injection h with hs; subst hs; rfl
    | null => exact Except.noConfusion h
    | bool b => exact Except.noConfusion h
    | num n => exact Except.noConfusion h
    | str s => exact Except.noConfusion h
    | obj fsj => exact Except.noConfusion h

/-- Witness for C7: appending to an absent ledger yields a JSON array. -/
theorem c7_execution_ledger_witness :
    append_execution_log (.str "r") .absent = .ok (.json (.arr [.str "r"]))
    ∧ FileState.isJsonArray (.json (.arr [.str "r"])) = true :=
  ⟨rfl, c7_execution_ledger.1 (.str "r") .absent (.json (.arr [.str "r"])) rfl⟩

/-- The stdout/ledger/exit contract of a failed run: exit code 1, the record
as the final stdout line, and the record appended to the ledger. -/
def errorContract (o : MainOutcome) (ledger : FileState) (r : Json) : Prop :=
  o.exitCode = 1 ∧ o.stdout.getLast? = some (.recordLine r)
    ∧ o.ledger = .json (.arr (ledger.entries ++ [r]))

/-- The stdout/ledger/exit contract of a successful run: exit code 0, the
record as the final stdout line, and the record appended to the ledger. -/
def successContract (o : MainOutcome) (ledger : FileState) (r : Json) : Prop :=
  o.exitCode = 0 ∧ o.stdout.getLast? = some (.recordLine r)
    ∧ o.ledger = .json (.arr (ledger.entries ++ [r]))

/-- C8.  Runner error path: on an appendable ledger, every exception from
workflow loading, prompt resolution or generation makes the runner build an
`Error` record carrying the exception message, an empty output and the
elapsed duration, append it to the ledger, print it as the final stdout line
and exit 1; a fully successful run performs the same append/print sequence
with a `Success` record and exit code 0. -/
theorem c8_runner_error_path (flow_path : String) (input_data : Json)
    (flowDoc : Except String Json) (http : HttpResult) (ledger : FileState)
    (execId : String) (t0 t1 : Int) (hledger : ledger.appendable = true) :
    (∀ e, flowDoc = .error e →
      errorContract (runMain flow_path input_data flowDoc http ledger execId t0 t1) ledger
        (mkRecord execId (flowName flow_path) "Error" input_data (.str "") e t0 (t1 - t0)))
    ∧ (∀ flow n e, flowDoc = .ok flow → flowNodesLen flow = .ok n →
      extract_prompt flow input_data = .error e →
      errorContract (runMain flow_path input_data flowDoc http ledger execId t0 t1) ledger
        (mkRecord execId (flowName flow_path) "Error" input_data (.str "") e t0 (t1 - t0)))
    ∧ (∀ flow n prompt e, flowDoc = .ok flow → flowNodesLen flow = .ok n →
      extract_prompt flow input_data = .ok prompt →
      run_ollama prompt http = .error e →
      errorContract (runMain flow_path input_data flowDoc http ledger execId t0 t1) ledger
        (mkRecord execId (flowName flow_path) "Error" input_data (.str "") e t0 (t1 - t0)))
    ∧ (∀ flow n prompt output, flowDoc = .ok flow → flowNodesLen flow = .ok n →
      extract_prompt flow input_data = .ok prompt →
      run_ollama prompt http = .ok output →
      successContract (runMain flow_path input_data flowDoc http ledger execId t0 t1) ledger
        (mkRecord execId (flowName flow_path) "Success" input_data output "" t0 (t1 - t0))) := by
  refine ⟨?_, ?_, ?_, ?_⟩
  · intro e h
    subst h
    simp only [runMain]
    rw [errorExit_spec _ _ _ _ hledger]
    exact ⟨rfl, getLast?_append_two _ _ _, rfl⟩
  · intro flow n e h1 h2 h3
    subst h1
    simp only [runMain, h2, h3]
    rw [errorExit_spec _ _ _ _ hledger]
    exact ⟨rfl, getLast?_append_two _ _ _, rfl⟩
  · intro flow n prompt e h1 h2 h3 h4
    subst h1
    simp only [runMain, h2, h3, h4]
    rw [errorExit_spec _ _ _ _ hledger]
    exact ⟨rfl, getLast?_append_two _ _ _, rfl⟩
  · intro flow n prompt output h1 h2 h3 h4
    subst h1
    simp only [runMain, h2, h3, h4, append_appendable, hledger]
    exact ⟨rfl, List.getLast?_concat _, rfl⟩

/-- Witness for C8: a failed workflow load on an absent ledger. -/
theorem c8_runner_error_path_witness :
    FileState.appendable .absent = true
    ∧ errorContract
        (runMain "flows/hello.json" .null (.error "boom") (.transportError "x") .absent
          "id0" 0 5)
        .absent
        (mkRecord "id0" (flowName "flows/hello.json") "Error" .null (.str "") "boom"
          0 (5 - 0)) :=
  ⟨rfl,
    (c8_runner_error_path "flows/hello.json" .null (.error "boom") (.transportError "x")
      .absent "id0" 0 5 rfl).1 "boom" rfl⟩

/-- C9 (amended).  Workflow name derivation: the record's workflow name is
the definition file's base name with every occurrence of the substring
`.json` removed; in particular, when `.json` occurs in the base name only
once, as the final extension, the name is the base name without its
extension. -/
theorem c9_workflow_name (dir stem : String)
    (hslash : stem.toList.all (fun c => c ≠ slashChar) = true)
    (hocc : subOccurs ".json".toList ((stem.toList ++ ".json".toList).dropLast) = false) :
    flowName (dir ++ "/" ++ stem ++ ".json") = stem := by
  have hext : (".json" : String).toList = ['.', 'j', 's', 'o', 'n'] := rfl
  have hpath : (dir ++ "/" ++ stem ++ ".json").toList
      = dir.toList ++ slashChar :: (stem.toList ++ ".json".toList) := by
    simp only [str_toList_append, List.append_assoc]
    rfl
  have hb : os_basename (dir ++ "/" ++ stem ++ ".json")
      = (stem.toList ++ ".json".toList).asString := by
    rw [os_basename, hpath, basenameList_append]
    intro c hc
    rcases List.mem_append.mp hc with h1 | h2
    · have h3 := List.all_eq_true.mp hslash c h1
      simpa using h3
    · rw [hext] at h2
      fin_cases h2 <;> decide
  rw [flowName, hb, pyReplace]
  have h0 : ("" : String).toList = [] := rfl
  rw [h0, asString_toList]
  rw [replace_unique_end (".json".toList) (by decide) stem.toList _ (le_refl _) hocc]
  exact toList_asString_self stem

/-- Witness for C9: a simple path with a single final `.json` extension. -/
theorem c9_workflow_name_witness :
    ("hello" : String).toList.all (fun c => c ≠ slashChar) = true
    ∧ subOccurs ".json".toList ((("hello" : String).toList ++ ".json".toList).dropLast) = false
    ∧ flowName ("flows" ++ "/" ++ "hello" ++ ".json") = "hello" :=
  ⟨by decide, by decide, c9_workflow_name "flows" "hello" (by decide) (by decide)⟩

/-- Counterexample to C9 as frozen: the base name `my.json.flow.json` should,
per the frozen claim, give the name `my.json.flow` (extension removed, rest
unchanged), but `.replace(".json", "")` removes every occurrence and yields
`my.flow`. -/
theorem c9_workflow_name_cex :
    flowName "flows/my.json.flow.json" = "my.flow"
    ∧ flowName "flows/my.json.flow.json" ≠ "my.json.flow" :=
  ⟨by decide, by decide⟩

/-- C10.  When the first node matching the ChatInput search has a falsy
recorded identifier (absent or empty at both levels), Strategy B is
abandoned entirely and resolution fails with the no-matching-node error —
regardless of any Prompt node with a non-empty template present in the
workflow (the statement imposes no condition on the remaining nodes). -/
theorem c10_chat_input_id_falsy (fields : List (String × Json)) (nodes : List Json)
    (input : Json) (oid : Option Json) (nd : Json)
    (hn : lookupField fields "nodes" = some (.arr nodes))
    (hA : strategyA input nodes = .ok none)
    (hfound : findMatch "ChatInput" nodes = .ok (some (oid, nd)))
    (hfalsy : optTruthy oid = false) :
    extract_prompt (.obj fields) input = .error notFoundMsg := by
  simp only [extract_prompt, hn, hA, hfound, hfalsy, Bool.false_eq_true, if_false]

/-- Witness for C10: a type-only ChatInput match with no identifier makes
resolution fail although `nPrompt` carries the non-empty template
`B-template`. -/
theorem c10_chat_input_id_falsy_witness :
    findMatch "ChatInput" [nTypeOnly, nPrompt] = .ok (some (none, nTypeOnly))
    ∧ promptTemplate nPrompt = .ok (some (.str "B-template"))
    ∧ extract_prompt flowC10 .null = .error notFoundMsg :=
  ⟨rfl, rfl,
    c10_chat_input_id_falsy [("nodes", .arr [nTypeOnly, nPrompt]), ("edges", .arr [])]
      [nTypeOnly, nPrompt] .null none nTypeOnly rfl rfl rfl rfl⟩
